import Mathlib

/-!
# Update orchestration and consistency checking of the vulnerability worker

A shallow embedding of `internal/worker/worker.go`: `UpdateCommit`, `checkUpdate`
and `CheckUpdateError`.  Calls that leave the function (store, repository, `doUpdate`)
are written to a call log carried in the world state, so that statements such as
"`doUpdate` is never invoked" can be read off the result.
-/

namespace Worker

/-! ## Go library values used by the worker -/

/-- Instant of a Go `time.Time` that carries no monotonic clock reading:
`sec` counts seconds since January 1, year 1 00:00:00 UTC, `nsec` the nanoseconds
within that second. -/
structure Time where
  sec : Int
  nsec : Nat
deriving DecidableEq, Repr

/-- Go `Time.IsZero`: `t.sec() == 0 && t.nsec() == 0`. -/
def Time.IsZero (t : Time) : Bool :=
  t.sec == 0 && t.nsec == 0

/-- Go `Time.Before`: `ts < us || ts == us && t.nsec() < u.nsec()`. -/
def Time.Before (t u : Time) : Bool :=
  decide (t.sec < u.sec) || (t.sec == u.sec && decide (t.nsec < u.nsec))

/-- Go `Time.After`: `ts > us || ts == us && t.nsec() > u.nsec()`. -/
def Time.After (t u : Time) : Bool :=
  decide (t.sec > u.sec) || (t.sec == u.sec && decide (t.nsec > u.nsec))

/-- Go `time.Duration`: a signed count of nanoseconds. -/
abbrev Duration := Int

/-- Smallest `time.Duration` (`math.MinInt64`). -/
def minDuration : Duration := -(2 ^ 63)

/-- Largest `time.Duration` (`math.MaxInt64`). -/
def maxDuration : Duration := 2 ^ 63 - 1

/-- Go `Time.Sub`: the difference `t - u` in nanoseconds, saturating at the
smallest and largest `Duration`. -/
def Time.Sub (t u : Time) : Duration :=
  let d := (t.sec - u.sec) * 1000000000 + ((t.nsec : Int) - (u.nsec : Int))
  if minDuration ≤ d ∧ d ≤ maxDuration then d
  else if t.Before u then minDuration
  else maxDuration

/-- Go `time.Since(t)`, that is `time.Now().Sub(t)`; `now` is the clock reading. -/
def timeSince (now t : Time) : Duration :=
  now.Sub t

/-- Value of go-git `plumbing.Hash`: the bytes of an object id. -/
structure Hash where
  bytes : List Nat
deriving DecidableEq, Repr

/-- Value of go-git `object.Signature`; only the `When` field is read. -/
structure Signature where
  When : Time
deriving DecidableEq, Repr

/-- Value of go-git `object.Commit`; only `Committer` is read. -/
structure Commit where
  Committer : Signature
deriving DecidableEq, Repr

/-- Formatting done by the Go standard library and go-git inside `fmt.Sprintf`;
these functions are not part of the repository and are taken as parameters. -/
structure Formatter where
  /-- Rendering of `%s` for a `time.Duration` (`Duration.String`). -/
  durationString : Duration → String
  /-- Rendering of `%q` for a string (`strconv.Quote`). -/
  quote : String → String
  /-- Rendering of `%s` for a `plumbing.Hash` (`Hash.String`). -/
  hashString : Hash → String
  /-- Rendering of `Time.Format(time.RFC3339)`. -/
  formatRFC3339 : Time → String

/-! ## Errors -/

/-- Modelled from the spec: the error value of a failing Update Record Store call
(package `internal/worker/store` is not part of the sources).  The store package is
imported by the worker, so it cannot build a `CheckUpdateError`. -/
structure StoreError where
  msg : String
deriving DecidableEq, Repr

/-- Error values seen by the worker.  `checkUpdateError` is the source type
`CheckUpdateError` with its `msg` field; `wrapped` is an error produced by
`fmt.Errorf("%s: %w", ...)`, whose `Unwrap` gives `inner`. -/
inductive Err where
  | checkUpdateError (msg : String)
  | store (e : StoreError)
  | objectNotFound
  | other (msg : String)
  | wrapped (context : String) (inner : Err)
deriving DecidableEq, Repr

/-- Method `(*CheckUpdateError).Error`, extended to the other error values. -/
def Err.Error : Err → String
  | .checkUpdateError msg => msg
  | .store e => e.msg
  | .objectNotFound => "object not found"
  | .other msg => msg
  | .wrapped context inner => context ++ ": " ++ inner.Error

/-- Go `errors.As(err, &cue)` for `cue *CheckUpdateError`: walks the `Unwrap`
chain and yields the message of the first `CheckUpdateError` found. -/
def Err.asCheckUpdateError : Err → Option String
  | .checkUpdateError msg => some msg
  | .wrapped _ inner => inner.asCheckUpdateError
  | _ => none

/-- End of the `Unwrap` chain of an error. -/
def Err.cause : Err → Err
  | .wrapped _ inner => inner.cause
  | e => e

/-- Modelled from the spec: `derrors.Wrap` (package `internal/derrors` is not part
of the sources).  The orchestrator surfaces an error to its caller: a nil error
stays nil, a non-nil error is annotated with the description of the call and keeps
the original error as what it wraps. -/
def derrorsWrap (context : String) : Option Err → Option Err
  | none => none
  | some e => some (Err.wrapped context e)

/-! ## Store, repository and world state -/

/-- Modelled from the spec: the `store.CommitUpdateRecord` type (package
`internal/worker/store` is not part of the sources) with the fields of the
UpdateRecord data model, which are the ones the worker reads. -/
structure CommitUpdateRecord where
  StartedAt : Time
  EndedAt : Time
  CommitHash : String
  CommitTime : Time
  Error : String
deriving DecidableEq, Repr

/-- Modelled from the spec: the `store.Store` interface (package
`internal/worker/store` is not part of the sources), over a store state `σ`.
`ListCommitUpdateRecords` is the query `listRecent(n)`: it reads the state and gives
the most recent records, most recent first, or fails with a store error. -/
structure Store (σ : Type) where
  ListCommitUpdateRecords : σ → Int → Except StoreError (List CommitUpdateRecord)

/-- Value of go-git `git.Repository`: the commit objects it can resolve. -/
structure Repository where
  objects : Hash → Option Commit

/-- Go-git `Repository.CommitObject`: the commit with the given hash, or
`plumbing.ErrObjectNotFound`. -/
def Repository.CommitObject (repo : Repository) (h : Hash) : Except Err Commit :=
  match repo.objects h with
  | some c => .ok c
  | none => .error Err.objectNotFound

/-- Calls made by the worker to its collaborators. -/
inductive Call where
  | CloneOrOpen (repoPath : String)
  | ListCommitUpdateRecords (limit : Int)
  | CommitObject (h : Hash)
  | doUpdate (h : Hash)
deriving DecidableEq, Repr

/-- State threaded through the worker: the store and the log of calls made so
far, oldest first. -/
structure World (σ : Type) where
  store : σ
  calls : List Call
deriving DecidableEq, Repr

/-- Appends a call to the log. -/
def World.record {σ : Type} (w : World σ) (c : Call) : World σ :=
  { w with calls := w.calls ++ [c] }

/-- Collaborators of `UpdateCommit` that are not part of the sources, taken as
parameters: `gitrepo.CloneOrOpen`, `plumbing.NewHash`, and `doUpdate` together with
the triage closure over `pkgsiteURL` that is passed to it.  `doUpdate` may change
the store in any way and return any error. -/
structure Env (σ : Type) where
  CloneOrOpen : String → Except Err Repository
  NewHash : String → Hash
  doUpdate : Repository → Hash → σ → String → Option Err × σ

/-! ## The worker -/

/-- Source function `checkUpdate`: sanity checks on a potential update.  The result is
the returned error (`none` for nil) and the world after the call. -/
def checkUpdate {σ : Type} (fmt : Formatter) (now : Time) (st : Store σ)
    (repo : Repository) (commitHash : Hash) (w : World σ) : Option Err × World σ :=
  let w1 := w.record (Call.ListCommitUpdateRecords 1)
  match st.ListCommitUpdateRecords w1.store 1 with
  | .error e => (some (Err.store e), w1)
  | .ok [] => (none, w1)
  | .ok (lu :: _) =>
    if lu.EndedAt.IsZero then
      (some (Err.checkUpdateError
        ("latest update started " ++ fmt.durationString (timeSince now lu.StartedAt)
          ++ " ago and has not finished")), w1)
    else if lu.Error ≠ "" then
      (some (Err.checkUpdateError
        ("latest update finished with error " ++ fmt.quote lu.Error)), w1)
    else
      let w2 := w1.record (Call.CommitObject commitHash)
      match repo.CommitObject commitHash with
      | .error e => (some e, w2)
      | .ok commit =>
        if commit.Committer.When.Before lu.CommitTime then
          (some (Err.checkUpdateError
            ("commit " ++ fmt.hashString commitHash ++ " time "
              ++ fmt.formatRFC3339 commit.Committer.When
              ++ " is before latest update commit " ++ lu.CommitHash ++ " time "
              ++ fmt.formatRFC3339 lu.CommitTime)), w2)
        else (none, w2)

/-- Rendering of `%t` for a bool. -/
def boolString (b : Bool) : String :=
  if b then "true" else "false"

/-- Description of the call given to `derrors.Wrap` by `UpdateCommit`:
`"RunCommitUpdate(%q, %q, force=%t)"`. -/
def updateCommitContext (fmt : Formatter) (repoPath commitHash : String) (force : Bool) :
    String :=
  "RunCommitUpdate(" ++ fmt.quote repoPath ++ ", " ++ fmt.quote commitHash
    ++ ", force=" ++ boolString force ++ ")"

/-- Last statements of `UpdateCommit`: the call of `doUpdate` and the return of its error. -/
def runDoUpdate {σ : Type} (env : Env σ) (repo : Repository) (ch : Hash)
    (pkgsiteURL : String) (w : World σ) : Option Err × World σ :=
  let w1 := w.record (Call.doUpdate ch)
  let r := env.doUpdate repo ch w1.store pkgsiteURL
  (r.1, { w1 with store := r.2 })

/-- Body of the source function `UpdateCommit`, before the deferred `derrors.Wrap`. -/
def updateCommitBody {σ : Type} (fmt : Formatter) (env : Env σ) (now : Time)
    (repoPath commitHash : String) (st : Store σ) (pkgsiteURL : String) (force : Bool)
    (w : World σ) : Option Err × World σ :=
  let w1 := w.record (Call.CloneOrOpen repoPath)
  match env.CloneOrOpen repoPath with
  | .error e => (some e, w1)
  | .ok repo =>
    let ch := env.NewHash commitHash
    if !force then
      match checkUpdate fmt now st repo ch w1 with
      | (some e, w2) => (some e, w2)
      | (none, w2) => runDoUpdate env repo ch pkgsiteURL w2
    else runDoUpdate env repo ch pkgsiteURL w1

/-- Source function `UpdateCommit`: performs an update on the store using the given
commit; unless `force` is true it first runs `checkUpdate`. -/
def UpdateCommit {σ : Type} (fmt : Formatter) (env : Env σ) (now : Time)
    (repoPath commitHash : String) (st : Store σ) (pkgsiteURL : String) (force : Bool)
    (w : World σ) : Option Err × World σ :=
  let r := updateCommitBody fmt env now repoPath commitHash st pkgsiteURL force w
  (derrorsWrap (updateCommitContext fmt repoPath commitHash force) r.1, r.2)

/-- Outcome classes of a check: nil, a `CheckUpdateError`, or another error. -/
inductive Decision where
  | ok
  | blocked
  | failed (e : Err)
deriving DecidableEq, Repr

/-- Outcome class of a returned error value. -/
def decision : Option Err → Decision
  | none => Decision.ok
  | some (Err.checkUpdateError _) => Decision.blocked
  | some e => Decision.failed e

/-! ## Sample values -/

/-- Midnight UTC of 1 January 2023 (Unix time 1672531200). -/
def t20230101 : Time := ⟨63808128000, 0⟩

/-- Midnight UTC of 31 December 2022 (Unix time 1672444800). -/
def t20221231 : Time := ⟨63808041600, 0⟩

/-- Midnight UTC of 2 January 2023. -/
def t20230102 : Time := ⟨63808214400, 0⟩

/-- One o'clock UTC of 2 January 2023, used as the clock reading. -/
def sampleNow : Time := ⟨63808218000, 0⟩

/-- A formatter for the samples: quotes without escaping, hashes as `#` per byte. -/
def sampleFormatter : Formatter where
  durationString := fun d => if d = 3600000000000 then "1h0m0s" else "some time"
  quote := fun s => "\"" ++ s ++ "\""
  hashString := fun h => String.mk (h.bytes.map (fun _ => '#'))
  formatRFC3339 := fun t => if t.sec = 63808128000 then "2023-01-01T00:00:00Z" else "another day"

/-- An in-memory store: the state is the list of records, most recent first. -/
def memStore : Store (List CommitUpdateRecord) where
  ListCommitUpdateRecords := fun s limit => .ok (if limit ≤ 0 then s else s.take limit.toNat)

/-- A store whose reads fail. -/
def brokenStore : Store (List CommitUpdateRecord) where
  ListCommitUpdateRecords := fun _ _ => .error ⟨"store unavailable"⟩

/-- Hash of the sample commit that is in the sample repository. -/
def hashKnown : Hash := ⟨[1, 2, 3]⟩

/-- A hash that the sample repository cannot resolve. -/
def hashAbsent : Hash := ⟨[9, 9, 9]⟩

/-- A repository holding one commit, `hashKnown`, with the given committer time. -/
def repoWith (tm : Time) : Repository where
  objects := fun h => if h = hashKnown then some ⟨⟨tm⟩⟩ else none

/-- A record of an update to the 1 January 2023 commit that finished without error. -/
def finishedRecord : CommitUpdateRecord :=
  ⟨t20230101, t20230102, "010203", t20230101, ""⟩

/-- A record of an update that started on 2 January 2023 and has no end time. -/
def openRecord : CommitUpdateRecord :=
  ⟨t20230102, ⟨0, 0⟩, "010203", t20230101, ""⟩

/-- A record of an update that finished with an error. -/
def failedRecord : CommitUpdateRecord :=
  ⟨t20230101, t20230102, "010203", t20230101, "triage failed"⟩

/-- Sample collaborators: the repository always opens, `"known"` names `hashKnown`,
and `doUpdate` appends a finished record and returns `result`. -/
def sampleEnv (tm : Time) (result : Option Err) : Env (List CommitUpdateRecord) where
  CloneOrOpen := fun _ => .ok (repoWith tm)
  NewHash := fun s => if s = "known" then hashKnown else hashAbsent
  doUpdate := fun _ _ s _ => (result, finishedRecord :: s)

/-- The world before any call, with the given store state. -/
def freshWorld (s : List CommitUpdateRecord) : World (List CommitUpdateRecord) :=
  ⟨s, []⟩

/-! ## Lemmas on the branches of `checkUpdate` -/

@[simp]
theorem World.record_store {σ : Type} (w : World σ) (c : Call) :
    (w.record c).store = w.store := rfl

@[simp]
theorem World.record_calls {σ : Type} (w : World σ) (c : Call) :
    (w.record c).calls = w.calls ++ [c] := rfl

/-- A failing store read is returned as it is, after the single store call. -/
theorem checkUpdate_of_list_error {σ : Type} (fmt : Formatter) (now : Time) (st : Store σ)
    (repo : Repository) (commitHash : Hash) (w : World σ) (e : StoreError)
    (hlist : st.ListCommitUpdateRecords w.store 1 = .error e) :
    checkUpdate fmt now st repo commitHash w
      = (some (Err.store e), w.record (Call.ListCommitUpdateRecords 1)) := by
  simp [checkUpdate, hlist]

/-- With no record the check returns nil after the single store call. -/
theorem checkUpdate_of_no_record {σ : Type} (fmt : Formatter) (now : Time) (st : Store σ)
    (repo : Repository) (commitHash : Hash) (w : World σ)
    (hlist : st.ListCommitUpdateRecords w.store 1 = .ok []) :
    checkUpdate fmt now st repo commitHash w
      = (none, w.record (Call.ListCommitUpdateRecords 1)) := by
  simp [checkUpdate, hlist]

/-- An unfinished latest record gives the "has not finished" error. -/
theorem checkUpdate_of_open_record {σ : Type} (fmt : Formatter) (now : Time) (st : Store σ)
    (repo : Repository) (commitHash : Hash) (w : World σ)
    (lu : CommitUpdateRecord) (rest : List CommitUpdateRecord)
    (hlist : st.ListCommitUpdateRecords w.store 1 = .ok (lu :: rest))
    (hopen : lu.EndedAt.IsZero = true) :
    checkUpdate fmt now st repo commitHash w
      = (some (Err.checkUpdateError
          ("latest update started " ++ fmt.durationString (timeSince now lu.StartedAt)
            ++ " ago and has not finished")),
         w.record (Call.ListCommitUpdateRecords 1)) := by
  simp [checkUpdate, hlist, hopen]

/-- A finished latest record with an error gives the "finished with error" error. -/
theorem checkUpdate_of_failed_record {σ : Type} (fmt : Formatter) (now : Time)
    (st : Store σ) (repo : Repository) (commitHash : Hash) (w : World σ)
    (lu : CommitUpdateRecord) (rest : List CommitUpdateRecord)
    (hlist : st.ListCommitUpdateRecords w.store 1 = .ok (lu :: rest))
    (hended : lu.EndedAt.IsZero = false) (herr : lu.Error ≠ "") :
    checkUpdate fmt now st repo commitHash w
      = (some (Err.checkUpdateError
          ("latest update finished with error " ++ fmt.quote lu.Error)),
         w.record (Call.ListCommitUpdateRecords 1)) := by
  simp [checkUpdate, hlist, hended, herr]

/-- After a successfully finished latest record, an unresolvable commit gives the
lookup error. -/
theorem checkUpdate_of_missing_commit {σ : Type} (fmt : Formatter) (now : Time)
    (st : Store σ) (repo : Repository) (commitHash : Hash) (w : World σ)
    (lu : CommitUpdateRecord) (rest : List CommitUpdateRecord)
    (hlist : st.ListCommitUpdateRecords w.store 1 = .ok (lu :: rest))
    (hended : lu.EndedAt.IsZero = false) (herr : lu.Error = "")
    (habsent : repo.objects commitHash = none) :
    checkUpdate fmt now st repo commitHash w
      = (some Err.objectNotFound,
         (w.record (Call.ListCommitUpdateRecords 1)).record (Call.CommitObject commitHash)) := by
  simp [checkUpdate, hlist, hended, herr, Repository.CommitObject, habsent]

/-- After a successfully finished latest record, a resolvable commit is refused
exactly when its committer time is before the record's commit time. -/
theorem checkUpdate_of_finished_record {σ : Type} (fmt : Formatter) (now : Time)
    (st : Store σ) (repo : Repository) (commitHash : Hash) (w : World σ)
    (lu : CommitUpdateRecord) (rest : List CommitUpdateRecord) (commit : Commit)
    (hlist : st.ListCommitUpdateRecords w.store 1 = .ok (lu :: rest))
    (hended : lu.EndedAt.IsZero = false) (herr : lu.Error = "")
    (hcommit : repo.objects commitHash = some commit) :
    checkUpdate fmt now st repo commitHash w
      = (if commit.Committer.When.Before lu.CommitTime then
           some (Err.checkUpdateError
            ("commit " ++ fmt.hashString commitHash ++ " time "
              ++ fmt.formatRFC3339 commit.Committer.When
              ++ " is before latest update commit " ++ lu.CommitHash ++ " time "
              ++ fmt.formatRFC3339 lu.CommitTime))
         else none,
         (w.record (Call.ListCommitUpdateRecords 1)).record (Call.CommitObject commitHash)) := by
  simp only [checkUpdate, World.record_store, hlist, hended, herr, Repository.CommitObject,
    hcommit]
  cases commit.Committer.When.Before lu.CommitTime <;> simp

/-- The check leaves the store as it was and adds to the log the store read,
followed by at most the commit lookup. -/
theorem checkUpdate_world {σ : Type} (fmt : Formatter) (now : Time) (st : Store σ)
    (repo : Repository) (commitHash : Hash) (w : World σ) :
    (checkUpdate fmt now st repo commitHash w).2.store = w.store ∧
    ((checkUpdate fmt now st repo commitHash w).2.calls
        = w.calls ++ [Call.ListCommitUpdateRecords 1] ∨
     (checkUpdate fmt now st repo commitHash w).2.calls
        = w.calls ++ [Call.ListCommitUpdateRecords 1, Call.CommitObject commitHash]) := by
  unfold checkUpdate
  simp only [World.record_store]
  split
  · simp
  · simp
  · split
    · simp
    · split
      · simp
      · split
        · simp
        · split <;> simp

/-- The "has not finished" message differs from the "finished with error" message. -/
theorem notFinished_ne_finishedWithError (x y z : String) :
    "latest update started " ++ x ++ y ≠ "latest update finished with error " ++ z := by
  intro h
  have hd := congrArg String.data h
  simp at hd

/-- The "has not finished" message differs from every message starting with "commit ". -/
theorem notFinished_ne_commitTime (x y z : String) :
    "latest update started " ++ x ++ y ≠ "commit " ++ z := by
  intro h
  have hd := congrArg String.data h
  simp at hd

/-- After a successfully finished latest record and for a resolvable commit, the check
returns nil exactly when the commit's time is not before the record's commit time. -/
theorem checkUpdate_nil_iff_not_before {σ : Type} (fmt : Formatter) (now : Time)
    (st : Store σ) (repo : Repository) (commitHash : Hash) (w : World σ)
    (lu : CommitUpdateRecord) (rest : List CommitUpdateRecord) (commit : Commit)
    (hlist : st.ListCommitUpdateRecords w.store 1 = .ok (lu :: rest))
    (hended : lu.EndedAt.IsZero = false) (herr : lu.Error = "")
    (hcommit : repo.objects commitHash = some commit) :
    (checkUpdate fmt now st repo commitHash w).1 = none
      ↔ commit.Committer.When.Before lu.CommitTime = false := by
  rw [checkUpdate_of_finished_record fmt now st repo commitHash w lu rest commit
    hlist hended herr hcommit]
  cases commit.Committer.When.Before lu.CommitTime <;> simp

/-! ## Claims on `checkUpdate` -/

/-- C1: evaluation at the failing input.  The latest record finished successfully with
commit time 2023-01-01T00:00:00Z and the target commit resolves with the same committer
time, which is not strictly after it; `checkUpdate` returns nil all the same. -/
theorem checkUpdate_nil_at_equal_commit_time :
    finishedRecord.EndedAt.IsZero = false ∧ finishedRecord.Error = "" ∧
    (repoWith t20230101).objects hashKnown = some ⟨⟨finishedRecord.CommitTime⟩⟩ ∧
    Time.After t20230101 finishedRecord.CommitTime = false ∧
    (checkUpdate sampleFormatter sampleNow memStore (repoWith t20230101) hashKnown
      (freshWorld [finishedRecord])).1 = none := by
  decide

/-- C2: when the most recent record has a zero `EndedAt`, then for every target hash,
every repository and every `Error` field `checkUpdate` returns the `CheckUpdateError`
saying that the latest update has not finished, with the time elapsed since the record's
`StartedAt`; it makes no commit lookup, and the message is neither the prior-failure
message nor the commit-time message. -/
theorem checkUpdate_open_record_blocks {σ : Type} (fmt : Formatter) (now : Time)
    (st : Store σ) (repo : Repository) (commitHash : Hash) (w : World σ)
    (lu : CommitUpdateRecord) (rest : List CommitUpdateRecord)
    (hlist : st.ListCommitUpdateRecords w.store 1 = .ok (lu :: rest))
    (hopen : lu.EndedAt.IsZero = true) :
    checkUpdate fmt now st repo commitHash w
      = (some (Err.checkUpdateError
          ("latest update started " ++ fmt.durationString (timeSince now lu.StartedAt)
            ++ " ago and has not finished")),
         w.record (Call.ListCommitUpdateRecords 1)) ∧
    "latest update started " ++ fmt.durationString (timeSince now lu.StartedAt)
        ++ " ago and has not finished"
      ≠ "latest update finished with error " ++ fmt.quote lu.Error ∧
    ∀ commit : Commit,
      "latest update started " ++ fmt.durationString (timeSince now lu.StartedAt)
          ++ " ago and has not finished"
        ≠ "commit " ++ fmt.hashString commitHash ++ " time "
            ++ fmt.formatRFC3339 commit.Committer.When
            ++ " is before latest update commit " ++ lu.CommitHash ++ " time "
            ++ fmt.formatRFC3339 lu.CommitTime := by
  refine ⟨checkUpdate_of_open_record fmt now st repo commitHash w lu rest hlist hopen,
    notFinished_ne_finishedWithError _ _ _, ?_⟩
  intro commit
  simp only [String.append_assoc]
  rw [← String.append_assoc]
  exact notFinished_ne_commitTime _ _ _

/-- Witness of C2: an open record and a target hash that does not resolve. -/
theorem checkUpdate_open_record_blocks_witness :
    memStore.ListCommitUpdateRecords (freshWorld [openRecord]).store 1 = .ok [openRecord] ∧
    openRecord.EndedAt.IsZero = true ∧
    (checkUpdate sampleFormatter sampleNow memStore (repoWith t20230102) hashAbsent
        (freshWorld [openRecord])
      = (some (Err.checkUpdateError "latest update started 1h0m0s ago and has not finished"),
         ⟨[openRecord], [Call.ListCommitUpdateRecords 1]⟩)) :=
  ⟨rfl, rfl,
    (checkUpdate_open_record_blocks sampleFormatter sampleNow memStore (repoWith t20230102)
      hashAbsent (freshWorld [openRecord]) openRecord [] rfl rfl).1⟩

/-- C3: when the most recent record has a non-zero `EndedAt` and a non-empty `Error`
string `e`, then for every target hash and repository `checkUpdate` returns a
`CheckUpdateError` whose message is "latest update finished with error " followed by
`e` in quoted form. -/
theorem checkUpdate_failed_record_blocks {σ : Type} (fmt : Formatter) (now : Time)
    (st : Store σ) (repo : Repository) (commitHash : Hash) (w : World σ)
    (lu : CommitUpdateRecord) (rest : List CommitUpdateRecord)
    (hlist : st.ListCommitUpdateRecords w.store 1 = .ok (lu :: rest))
    (hended : lu.EndedAt.IsZero = false) (herr : lu.Error ≠ "") :
    checkUpdate fmt now st repo commitHash w
      = (some (Err.checkUpdateError
          ("latest update finished with error " ++ fmt.quote lu.Error)),
         w.record (Call.ListCommitUpdateRecords 1)) :=
  checkUpdate_of_failed_record fmt now st repo commitHash w lu rest hlist hended herr

/-- Witness of C3: the latest record finished with the error "triage failed". -/
theorem checkUpdate_failed_record_blocks_witness :
    memStore.ListCommitUpdateRecords (freshWorld [failedRecord]).store 1 = .ok [failedRecord] ∧
    failedRecord.EndedAt.IsZero = false ∧ failedRecord.Error ≠ "" ∧
    (checkUpdate sampleFormatter sampleNow memStore (repoWith t20230102) hashKnown
        (freshWorld [failedRecord])
      = (some (Err.checkUpdateError "latest update finished with error \"triage failed\""),
         ⟨[failedRecord], [Call.ListCommitUpdateRecords 1]⟩)) :=
  ⟨rfl, rfl, by decide,
    checkUpdate_failed_record_blocks sampleFormatter sampleNow memStore (repoWith t20230102)
      hashKnown (freshWorld [failedRecord]) failedRecord [] rfl rfl (by decide)⟩

/-- C4: when `ListCommitUpdateRecords(1)` succeeds with an empty list, `checkUpdate`
returns nil for every target hash and repository. -/
theorem checkUpdate_no_record_ok {σ : Type} (fmt : Formatter) (now : Time)
    (st : Store σ) (repo : Repository) (commitHash : Hash) (w : World σ)
    (hlist : st.ListCommitUpdateRecords w.store 1 = .ok []) :
    checkUpdate fmt now st repo commitHash w
      = (none, w.record (Call.ListCommitUpdateRecords 1)) :=
  checkUpdate_of_no_record fmt now st repo commitHash w hlist

/-- Witness of C4: the empty in-memory store and a hash that does not resolve. -/
theorem checkUpdate_no_record_ok_witness :
    memStore.ListCommitUpdateRecords (freshWorld []).store 1 = .ok [] ∧
    (checkUpdate sampleFormatter sampleNow memStore (repoWith t20230101) hashAbsent
        (freshWorld [])
      = (none, ⟨[], [Call.ListCommitUpdateRecords 1]⟩)) :=
  ⟨rfl,
    checkUpdate_no_record_ok sampleFormatter sampleNow memStore (repoWith t20230101)
      hashAbsent (freshWorld []) rfl⟩

/-- C5: when the latest record finished successfully and the target commit resolves
with a committer time strictly before the record's `CommitTime`, `checkUpdate` returns
the `CheckUpdateError` saying that the commit is before the latest update commit. -/
theorem checkUpdate_rewind_blocked {σ : Type} (fmt : Formatter) (now : Time)
    (st : Store σ) (repo : Repository) (commitHash : Hash) (w : World σ)
    (lu : CommitUpdateRecord) (rest : List CommitUpdateRecord) (commit : Commit)
    (hlist : st.ListCommitUpdateRecords w.store 1 = .ok (lu :: rest))
    (hended : lu.EndedAt.IsZero = false) (herr : lu.Error = "")
    (hcommit : repo.objects commitHash = some commit)
    (hbefore : commit.Committer.When.Before lu.CommitTime = true) :
    (checkUpdate fmt now st repo commitHash w).1
      = some (Err.checkUpdateError
          ("commit " ++ fmt.hashString commitHash ++ " time "
            ++ fmt.formatRFC3339 commit.Committer.When
            ++ " is before latest update commit " ++ lu.CommitHash ++ " time "
            ++ fmt.formatRFC3339 lu.CommitTime)) := by
  rw [checkUpdate_of_finished_record fmt now st repo commitHash w lu rest commit
    hlist hended herr hcommit]
  simp [hbefore]

/-- Witness of C5: record commit time 2023-01-01T00:00:00Z, candidate
2022-12-31T00:00:00Z. -/
theorem checkUpdate_rewind_blocked_witness :
    memStore.ListCommitUpdateRecords (freshWorld [finishedRecord]).store 1
      = .ok [finishedRecord] ∧
    finishedRecord.EndedAt.IsZero = false ∧ finishedRecord.Error = "" ∧
    (repoWith t20221231).objects hashKnown = some ⟨⟨t20221231⟩⟩ ∧
    Time.Before t20221231 finishedRecord.CommitTime = true ∧
    (checkUpdate sampleFormatter sampleNow memStore (repoWith t20221231) hashKnown
        (freshWorld [finishedRecord])).1
      = some (Err.checkUpdateError
          "commit ### time another day is before latest update commit 010203 time 2023-01-01T00:00:00Z") :=
  ⟨rfl, rfl, rfl, rfl, rfl,
    checkUpdate_rewind_blocked sampleFormatter sampleNow memStore (repoWith t20221231)
      hashKnown (freshWorld [finishedRecord]) finishedRecord [] ⟨⟨t20221231⟩⟩
      rfl rfl rfl rfl rfl⟩

/-- The outcome class of the check is the same for every clock reading and every
earlier call log. -/
theorem checkUpdate_decision_stable {σ : Type} (fmt : Formatter) (st : Store σ)
    (repo : Repository) (commitHash : Hash) (s : σ) (l l' : List Call) (now now' : Time) :
    decision (checkUpdate fmt now st repo commitHash ⟨s, l⟩).1
      = decision (checkUpdate fmt now' st repo commitHash ⟨s, l'⟩).1 := by
  simp only [checkUpdate, World.record_store]
  cases st.ListCommitUpdateRecords s 1 with
  | error e => rfl
  | ok urs =>
    cases urs with
    | nil => rfl
    | cons lu rest =>
      simp only []
      cases lu.EndedAt.IsZero with
      | true => simp [decision]
      | false =>
        by_cases herr : lu.Error = ""
        · simp only [herr]
          cases repo.CommitObject commitHash with
          | error e => simp
          | ok commit =>
            by_cases hb : commit.Committer.When.Before lu.CommitTime = true <;>
              simp [hb, decision]
        · simp [herr, decision]

/-- C9: `checkUpdate` only observes.  The store after the call is the store before
it; the calls it adds to the log are one `ListCommitUpdateRecords(1)` followed by at
most the commit lookup; two calls on the same store state and target commit give the
same returned error when the clock reading is the same, and the same ok / blocked
decision whatever the clock readings and earlier logs are. -/
theorem checkUpdate_idempotent_observation {σ : Type} (fmt : Formatter) (st : Store σ)
    (repo : Repository) (commitHash : Hash) (s : σ) (l l' : List Call) (now now' : Time) :
    (checkUpdate fmt now st repo commitHash ⟨s, l⟩).2.store = s ∧
    ((checkUpdate fmt now st repo commitHash ⟨s, l⟩).2.calls
        = l ++ [Call.ListCommitUpdateRecords 1] ∨
     (checkUpdate fmt now st repo commitHash ⟨s, l⟩).2.calls
        = l ++ [Call.ListCommitUpdateRecords 1, Call.CommitObject commitHash]) ∧
    (checkUpdate fmt now st repo commitHash ⟨s, l⟩).1
      = (checkUpdate fmt now st repo commitHash ⟨s, l'⟩).1 ∧
    decision (checkUpdate fmt now st repo commitHash ⟨s, l⟩).1
      = decision (checkUpdate fmt now' st repo commitHash ⟨s, l'⟩).1 := by
  refine ⟨(checkUpdate_world fmt now st repo commitHash ⟨s, l⟩).1,
    (checkUpdate_world fmt now st repo commitHash ⟨s, l⟩).2, ?_,
    checkUpdate_decision_stable fmt st repo commitHash s l l' now now'⟩
  simp only [checkUpdate, World.record_store]
  cases st.ListCommitUpdateRecords s 1 with
  | error e => rfl
  | ok urs =>
    cases urs with
    | nil => rfl
    | cons lu rest =>
      simp only []
      cases lu.EndedAt.IsZero with
      | true => simp
      | false =>
        by_cases herr : lu.Error = ""
        · simp only [herr]
          cases repo.CommitObject commitHash with
          | error e => simp
          | ok commit =>
            by_cases hb : commit.Committer.When.Before lu.CommitTime = true <;> simp [hb]
        · simp [herr]

/-- C10: when `ListCommitUpdateRecords` fails with the error `e`, `checkUpdate` returns
`e` itself, which is not nil and not a `CheckUpdateError`, and the only call it has made
is that store read: no commit lookup. -/
theorem checkUpdate_store_failure_propagates {σ : Type} (fmt : Formatter) (now : Time)
    (st : Store σ) (repo : Repository) (commitHash : Hash) (w : World σ) (e : StoreError)
    (hlist : st.ListCommitUpdateRecords w.store 1 = .error e) :
    checkUpdate fmt now st repo commitHash w
      = (some (Err.store e), ⟨w.store, w.calls ++ [Call.ListCommitUpdateRecords 1]⟩) ∧
    (Err.store e).asCheckUpdateError = none ∧
    decision (checkUpdate fmt now st repo commitHash w).1 = Decision.failed (Err.store e) := by
  have h := checkUpdate_of_list_error fmt now st repo commitHash w e hlist
  refine ⟨h, rfl, ?_⟩
  rw [h]
  rfl

/-- Witness of C10: a store whose reads fail, in front of a finished record. -/
theorem checkUpdate_store_failure_propagates_witness :
    brokenStore.ListCommitUpdateRecords (freshWorld [finishedRecord]).store 1
      = .error ⟨"store unavailable"⟩ ∧
    (checkUpdate sampleFormatter sampleNow brokenStore (repoWith t20230102) hashKnown
        (freshWorld [finishedRecord])
      = (some (Err.store ⟨"store unavailable"⟩),
         ⟨[finishedRecord], [Call.ListCommitUpdateRecords 1]⟩)) :=
  ⟨rfl,
    (checkUpdate_store_failure_propagates sampleFormatter sampleNow brokenStore
      (repoWith t20230102) hashKnown (freshWorld [finishedRecord])
      ⟨"store unavailable"⟩ rfl).1⟩

/-! ## Lemmas on the branches of `UpdateCommit` -/

/-- With `force` false and a failing check, the body returns the check's error in the
check's world. -/
theorem updateCommitBody_of_check_error {σ : Type} (fmt : Formatter) (env : Env σ)
    (now : Time) (repoPath commitHash : String) (st : Store σ) (pkgsiteURL : String)
    (w w' : World σ) (repo : Repository) (e : Err)
    (hrepo : env.CloneOrOpen repoPath = .ok repo)
    (hcheck : checkUpdate fmt now st repo (env.NewHash commitHash)
        (w.record (Call.CloneOrOpen repoPath)) = (some e, w')) :
    updateCommitBody fmt env now repoPath commitHash st pkgsiteURL false w = (some e, w') := by
  simp [updateCommitBody, hrepo, hcheck]

/-- With `force` true the body is the call of `doUpdate`, right after opening the
repository. -/
theorem updateCommitBody_of_force {σ : Type} (fmt : Formatter) (env : Env σ)
    (now : Time) (repoPath commitHash : String) (st : Store σ) (pkgsiteURL : String)
    (w : World σ) (repo : Repository)
    (hrepo : env.CloneOrOpen repoPath = .ok repo) :
    updateCommitBody fmt env now repoPath commitHash st pkgsiteURL true w
      = ((env.doUpdate repo (env.NewHash commitHash) w.store pkgsiteURL).1,
         ⟨(env.doUpdate repo (env.NewHash commitHash) w.store pkgsiteURL).2,
          w.calls ++ [Call.CloneOrOpen repoPath, Call.doUpdate (env.NewHash commitHash)]⟩) := by
  simp [updateCommitBody, hrepo, runDoUpdate, World.record]

/-- Wrapping keeps the `CheckUpdateError` found by `errors.As`, if any. -/
theorem derrorsWrap_asCheckUpdateError (context : String) (r : Option Err) :
    (derrorsWrap context r).bind Err.asCheckUpdateError = r.bind Err.asCheckUpdateError := by
  cases r <;> rfl

/-- Wrapping keeps nil and only nil as nil. -/
theorem derrorsWrap_eq_none_iff (context : String) (r : Option Err) :
    derrorsWrap context r = none ↔ r = none := by
  cases r <;> simp [derrorsWrap]

/-! ## Claims on `UpdateCommit` -/

/-- C6: with `force` false, when the repository opens and `checkUpdate` returns an error
`e` (of any kind), `UpdateCommit` returns `e` wrapped in its call description, so that
the cause and the `CheckUpdateError` seen through the wrapping are those of `e`; the store
is unchanged, and the calls added to the log do not include `doUpdate`. -/
theorem UpdateCommit_check_error_aborts {σ : Type} (fmt : Formatter) (env : Env σ)
    (now : Time) (repoPath commitHash : String) (st : Store σ) (pkgsiteURL : String)
    (w : World σ) (repo : Repository) (e : Err)
    (hrepo : env.CloneOrOpen repoPath = .ok repo)
    (hcheck : (checkUpdate fmt now st repo (env.NewHash commitHash)
        (w.record (Call.CloneOrOpen repoPath))).1 = some e) :
    (UpdateCommit fmt env now repoPath commitHash st pkgsiteURL false w).1
      = some (Err.wrapped (updateCommitContext fmt repoPath commitHash false) e) ∧
    (Err.wrapped (updateCommitContext fmt repoPath commitHash false) e).cause = e.cause ∧
    (Err.wrapped (updateCommitContext fmt repoPath commitHash false) e).asCheckUpdateError
      = e.asCheckUpdateError ∧
    (UpdateCommit fmt env now repoPath commitHash st pkgsiteURL false w).2.store = w.store ∧
    ∃ cs, (UpdateCommit fmt env now repoPath commitHash st pkgsiteURL false w).2.calls
        = w.calls ++ cs ∧ ∀ h, Call.doUpdate h ∉ cs := by
  have hw := checkUpdate_world fmt now st repo (env.NewHash commitHash)
    (w.record (Call.CloneOrOpen repoPath))
  rcases hc : checkUpdate fmt now st repo (env.NewHash commitHash)
    (w.record (Call.CloneOrOpen repoPath)) with ⟨r1, w'⟩
  rw [hc] at hcheck hw
  simp only at hcheck
  subst hcheck
  have hbody := updateCommitBody_of_check_error fmt env now repoPath commitHash st
    pkgsiteURL w w' repo e hrepo hc
  simp only [World.record_store, World.record_calls] at hw
  refine ⟨?_, rfl, rfl, ?_, ?_⟩
  · simp [UpdateCommit, hbody, derrorsWrap]
  · simp [UpdateCommit, hbody, hw.1]
  · rcases hw.2 with h2 | h2
    · refine ⟨[Call.CloneOrOpen repoPath, Call.ListCommitUpdateRecords 1], ?_, ?_⟩
      · simp [UpdateCommit, hbody, h2]
      · intro h; simp
    · refine ⟨[Call.CloneOrOpen repoPath, Call.ListCommitUpdateRecords 1,
        Call.CommitObject (env.NewHash commitHash)], ?_, ?_⟩
      · simp [UpdateCommit, hbody, h2]
      · intro h; simp

/-- Witness of C6: the latest record is open, so the check fails and the update is
given up. -/
theorem UpdateCommit_check_error_aborts_witness :
    (sampleEnv t20230102 none).CloneOrOpen "/repo" = .ok (repoWith t20230102) ∧
    (checkUpdate sampleFormatter sampleNow memStore (repoWith t20230102)
        ((sampleEnv t20230102 none).NewHash "known")
        ((freshWorld [openRecord]).record (Call.CloneOrOpen "/repo"))).1
      = some (Err.checkUpdateError "latest update started 1h0m0s ago and has not finished") ∧
    (UpdateCommit sampleFormatter (sampleEnv t20230102 none) sampleNow "/repo" "known"
        memStore "https://pkgsite" false (freshWorld [openRecord])).1
      = some (Err.wrapped "RunCommitUpdate(\"/repo\", \"known\", force=false)"
          (Err.checkUpdateError "latest update started 1h0m0s ago and has not finished")) ∧
    (UpdateCommit sampleFormatter (sampleEnv t20230102 none) sampleNow "/repo" "known"
        memStore "https://pkgsite" false (freshWorld [openRecord])).2.store = [openRecord] :=
  have h := UpdateCommit_check_error_aborts sampleFormatter (sampleEnv t20230102 none)
    sampleNow "/repo" "known" memStore "https://pkgsite" (freshWorld [openRecord])
    (repoWith t20230102)
    (Err.checkUpdateError "latest update started 1h0m0s ago and has not finished") rfl rfl
  ⟨rfl, rfl, h.1, h.2.2.2.1⟩

/-- C7 fails as stated: with `force` true and a `doUpdate` that returns an error, the
result of `UpdateCommit` is not that error but the error wrapped in the call description. -/
theorem UpdateCommit_force_result_ne_doUpdate_result :
    (sampleEnv t20230102 (some (Err.other "triage failed"))).CloneOrOpen "/repo"
      = .ok (repoWith t20230102) ∧
    ((sampleEnv t20230102 (some (Err.other "triage failed"))).doUpdate (repoWith t20230102)
        hashKnown [openRecord] "https://pkgsite").1 = some (Err.other "triage failed") ∧
    (UpdateCommit sampleFormatter (sampleEnv t20230102 (some (Err.other "triage failed")))
        sampleNow "/repo" "known" memStore "https://pkgsite" true (freshWorld [openRecord])).1
      = some (Err.wrapped "RunCommitUpdate(\"/repo\", \"known\", force=true)"
          (Err.other "triage failed")) ∧
    (UpdateCommit sampleFormatter (sampleEnv t20230102 (some (Err.other "triage failed")))
        sampleNow "/repo" "known" memStore "https://pkgsite" true (freshWorld [openRecord])).1
      ≠ ((sampleEnv t20230102 (some (Err.other "triage failed"))).doUpdate
          (repoWith t20230102) hashKnown [openRecord] "https://pkgsite").1 := by
  refine ⟨rfl, rfl, rfl, ?_⟩
  decide

/-- C7 as amended: with `force` true and a repository that opens, `UpdateCommit` makes
no call of `checkUpdate` (the log gets the repository opening and `doUpdate` only) and
always runs `doUpdate`; its result is `doUpdate`'s result passed through the deferred
`derrors.Wrap`: nil exactly when `doUpdate` returns nil, and with a `CheckUpdateError`
inside only if `doUpdate`'s own error has one. -/
theorem UpdateCommit_force_bypasses_check {σ : Type} (fmt : Formatter) (env : Env σ)
    (now : Time) (repoPath commitHash : String) (st : Store σ) (pkgsiteURL : String)
    (w : World σ) (repo : Repository)
    (hrepo : env.CloneOrOpen repoPath = .ok repo) :
    UpdateCommit fmt env now repoPath commitHash st pkgsiteURL true w
      = (derrorsWrap (updateCommitContext fmt repoPath commitHash true)
           (env.doUpdate repo (env.NewHash commitHash) w.store pkgsiteURL).1,
         ⟨(env.doUpdate repo (env.NewHash commitHash) w.store pkgsiteURL).2,
          w.calls ++ [Call.CloneOrOpen repoPath, Call.doUpdate (env.NewHash commitHash)]⟩) ∧
    ((UpdateCommit fmt env now repoPath commitHash st pkgsiteURL true w).1 = none
      ↔ (env.doUpdate repo (env.NewHash commitHash) w.store pkgsiteURL).1 = none) ∧
    (UpdateCommit fmt env now repoPath commitHash st pkgsiteURL true w).1.bind
        Err.asCheckUpdateError
      = (env.doUpdate repo (env.NewHash commitHash) w.store pkgsiteURL).1.bind
          Err.asCheckUpdateError := by
  have hbody := updateCommitBody_of_force fmt env now repoPath commitHash st pkgsiteURL
    w repo hrepo
  refine ⟨?_, ?_, ?_⟩
  · simp [UpdateCommit, hbody]
  · simp only [UpdateCommit, hbody]
    exact derrorsWrap_eq_none_iff _ _
  · simp only [UpdateCommit, hbody]
    exact derrorsWrap_asCheckUpdateError _ _

/-- Witness of C7 as amended: the latest record is open, on which `checkUpdate` would
return a `CheckUpdateError`; with `force` true the update runs and returns nil. -/
theorem UpdateCommit_force_bypasses_check_witness :
    (sampleEnv t20230102 none).CloneOrOpen "/repo" = .ok (repoWith t20230102) ∧
    (UpdateCommit sampleFormatter (sampleEnv t20230102 none) sampleNow "/repo" "known"
        memStore "https://pkgsite" true (freshWorld [openRecord])
      = (none, ⟨[finishedRecord, openRecord],
          [Call.CloneOrOpen "/repo", Call.doUpdate hashKnown]⟩)) :=
  ⟨rfl,
    (UpdateCommit_force_bypasses_check sampleFormatter (sampleEnv t20230102 none) sampleNow
      "/repo" "known" memStore "https://pkgsite" (freshWorld [openRecord])
      (repoWith t20230102) rfl).1⟩

/-- C8 fails as stated: the commit identifier is absent from the repository and the
latest record is open; `UpdateCommit` with `force` false fails with the
`CheckUpdateError` of the open record, not with the commit-lookup error, and no commit
lookup has been made. -/
theorem UpdateCommit_absent_commit_open_record_blocked :
    (sampleEnv t20230102 none).CloneOrOpen "/repo" = .ok (repoWith t20230102) ∧
    (repoWith t20230102).objects ((sampleEnv t20230102 none).NewHash "absent") = none ∧
    UpdateCommit sampleFormatter (sampleEnv t20230102 none) sampleNow "/repo" "absent"
        memStore "https://pkgsite" false (freshWorld [openRecord])
      = (some (Err.wrapped "RunCommitUpdate(\"/repo\", \"absent\", force=false)"
          (Err.checkUpdateError "latest update started 1h0m0s ago and has not finished")),
         ⟨[openRecord], [Call.CloneOrOpen "/repo", Call.ListCommitUpdateRecords 1]⟩) ∧
    ((UpdateCommit sampleFormatter (sampleEnv t20230102 none) sampleNow "/repo" "absent"
        memStore "https://pkgsite" false (freshWorld [openRecord])).1.bind
          Err.asCheckUpdateError).isSome = true ∧
    (UpdateCommit sampleFormatter (sampleEnv t20230102 none) sampleNow "/repo" "absent"
        memStore "https://pkgsite" false (freshWorld [openRecord])).1.map Err.cause
      ≠ some Err.objectNotFound := by
  refine ⟨rfl, rfl, ?_, ?_, ?_⟩ <;> decide

/-- C8 as amended: the commit identifier is absent from the repository, the repository
opens and the store has a latest record.  If that record finished successfully,
`UpdateCommit` with `force` false fails with the commit-lookup error in its call
description (not nil, not a `CheckUpdateError`), the store is unchanged and `doUpdate` is
not called.  If that record is open or failed, `UpdateCommit` fails with the
`CheckUpdateError` before any commit lookup, the store unchanged as well. -/
theorem UpdateCommit_absent_commit {σ : Type} (fmt : Formatter) (env : Env σ)
    (now : Time) (repoPath commitHash : String) (st : Store σ) (pkgsiteURL : String)
    (w : World σ) (repo : Repository)
    (lu : CommitUpdateRecord) (rest : List CommitUpdateRecord)
    (hrepo : env.CloneOrOpen repoPath = .ok repo)
    (habsent : repo.objects (env.NewHash commitHash) = none)
    (hlist : st.ListCommitUpdateRecords w.store 1 = .ok (lu :: rest)) :
    (lu.EndedAt.IsZero = false → lu.Error = "" →
      UpdateCommit fmt env now repoPath commitHash st pkgsiteURL false w
        = (some (Err.wrapped (updateCommitContext fmt repoPath commitHash false)
              Err.objectNotFound),
           ⟨w.store, w.calls ++ [Call.CloneOrOpen repoPath, Call.ListCommitUpdateRecords 1,
              Call.CommitObject (env.NewHash commitHash)]⟩) ∧
      (Err.wrapped (updateCommitContext fmt repoPath commitHash false)
          Err.objectNotFound).asCheckUpdateError = none) ∧
    ((lu.EndedAt.IsZero = true ∨ lu.Error ≠ "") →
      ∃ msg, UpdateCommit fmt env now repoPath commitHash st pkgsiteURL false w
        = (some (Err.wrapped (updateCommitContext fmt repoPath commitHash false)
              (Err.checkUpdateError msg)),
           ⟨w.store, w.calls ++ [Call.CloneOrOpen repoPath,
              Call.ListCommitUpdateRecords 1]⟩)) := by
  have hlist' : st.ListCommitUpdateRecords (w.record (Call.CloneOrOpen repoPath)).store 1
      = .ok (lu :: rest) := hlist
  constructor
  · intro hended herr
    have hc := checkUpdate_of_missing_commit fmt now st repo (env.NewHash commitHash)
      (w.record (Call.CloneOrOpen repoPath)) lu rest hlist' hended herr habsent
    have hbody := updateCommitBody_of_check_error fmt env now repoPath commitHash st
      pkgsiteURL w _ repo _ hrepo hc
    refine ⟨?_, rfl⟩
    simp [UpdateCommit, hbody, derrorsWrap, World.record]
  · intro hblocked
    by_cases hopen : lu.EndedAt.IsZero = true
    · have hc := checkUpdate_of_open_record fmt now st repo (env.NewHash commitHash)
        (w.record (Call.CloneOrOpen repoPath)) lu rest hlist' hopen
      have hbody := updateCommitBody_of_check_error fmt env now repoPath commitHash st
        pkgsiteURL w _ repo _ hrepo hc
      refine ⟨"latest update started " ++ fmt.durationString (timeSince now lu.StartedAt)
        ++ " ago and has not finished", ?_⟩
      simp [UpdateCommit, hbody, derrorsWrap, World.record]
    · have hended : lu.EndedAt.IsZero = false := by simpa using hopen
      have herr : lu.Error ≠ "" := by
        rcases hblocked with h | h
        · exact absurd h hopen
        · exact h
      have hc := checkUpdate_of_failed_record fmt now st repo (env.NewHash commitHash)
        (w.record (Call.CloneOrOpen repoPath)) lu rest hlist' hended herr
      have hbody := updateCommitBody_of_check_error fmt env now repoPath commitHash st
        pkgsiteURL w _ repo _ hrepo hc
      refine ⟨"latest update finished with error " ++ fmt.quote lu.Error, ?_⟩
      simp [UpdateCommit, hbody, derrorsWrap, World.record]

/-- Witness of C8 as amended: the commit identifier is absent and the latest record
finished successfully. -/
theorem UpdateCommit_absent_commit_witness :
    (sampleEnv t20230102 none).CloneOrOpen "/repo" = .ok (repoWith t20230102) ∧
    (repoWith t20230102).objects ((sampleEnv t20230102 none).NewHash "absent") = none ∧
    memStore.ListCommitUpdateRecords (freshWorld [finishedRecord]).store 1
      = .ok [finishedRecord] ∧
    finishedRecord.EndedAt.IsZero = false ∧ finishedRecord.Error = "" ∧
    (UpdateCommit sampleFormatter (sampleEnv t20230102 none) sampleNow "/repo" "absent"
        memStore "https://pkgsite" false (freshWorld [finishedRecord])
      = (some (Err.wrapped "RunCommitUpdate(\"/repo\", \"absent\", force=false)"
          Err.objectNotFound),
         ⟨[finishedRecord], [Call.CloneOrOpen "/repo", Call.ListCommitUpdateRecords 1,
            Call.CommitObject hashAbsent]⟩)) :=
  ⟨rfl, rfl, rfl, rfl, rfl,
    ((UpdateCommit_absent_commit sampleFormatter (sampleEnv t20230102 none) sampleNow
      "/repo" "absent" memStore "https://pkgsite" (freshWorld [finishedRecord])
      (repoWith t20230102) finishedRecord [] rfl rfl rfl).1 rfl rfl).1⟩

end Worker
